import Mathlib

/-!
A shallow embedding of the go-cli subcommand dispatch library: the command
registry, the dispatcher and the usage renderer, translated from `cli.go`,
`cli_usage.go` and the further source files of the repository. Go strings are
modelled as `String`; `os.Args[0]` is passed explicitly as `argv0`; text
written to the diagnostic stream (standard error) is modelled as a returned
`String`, and `os.Exit` by the `RunOutcome.exited` constructor.
-/

set_option maxRecDepth 4096

namespace Cli

/-- Embeds the Go standard library function `path.Base`: the last element of
`p` after stripping trailing slashes; `"."` for the empty path and `"/"` when
the path consists only of slashes. -/
def pathBase (p : String) : String :=
  if p = "" then "."
  else
    let r := p.toList.reverse.dropWhile (fun c => c = '/')
    let base := r.takeWhile (fun c => c ≠ '/')
    if base = [] then "/" else String.mk base.reverse

/-- Embeds `flag.Flag` of the Go flag package as this repository uses it:
flag name, usage text and the string form of the default value (`DefValue`).
`isStringValue` carries the fact the reflection test of `shouldQuoteValue`
(`cli_usage.go`) inspects: whether the dynamic type of `f.Value` is a pointer
to a type of string kind. -/
structure Flag where
  Name : String
  Usage : String
  DefValue : String
  isStringValue : Bool
deriving Repr, DecidableEq

/-- The result of `flag.FlagSet.Parse` (external collaborator): success with
the remaining positional arguments (what `FlagSet.Args()` then returns), the
distinguished `flag.ErrHelp`, or another parse error with its message. -/
inductive ParseResult where
  | ok (rest : List String)
  | errHelp
  | err (msg : String)

/-- Embeds `flag.FlagSet`: the registered flag definitions (the `formal`
map, here in registration order) together with the behaviour of `Parse`,
abstracted as a function because value parsing is an external collaborator
this repository wraps and does not reimplement. -/
structure FlagSet where
  formal : List Flag
  parseFn : List String → ParseResult

instance : DecidableRel (fun a b : Flag => a.Name ≤ b.Name) :=
  fun a b => inferInstanceAs (Decidable (a.Name ≤ b.Name))

/-- `flag.FlagSet.VisitAll` visits the flags in lexicographical order of
their names. -/
def FlagSet.visitAll (fs : FlagSet) : List Flag :=
  fs.formal.insertionSort (fun a b => a.Name ≤ b.Name)

/-- `flag.FlagSet.Bool` flag creation: `DefValue` is the formatted default
(`strconv.FormatBool`), and the underlying value is not of string kind. -/
def boolFlag (nm : String) (value : Bool) (usage : String) : Flag :=
  { Name := nm, Usage := usage,
    DefValue := if value then "true" else "false", isStringValue := false }

/-- `flag.FlagSet.String` flag creation: `DefValue` is the default itself and
the underlying value is a pointer to a type of string kind. -/
def stringFlag (nm : String) (value : String) (usage : String) : Flag :=
  { Name := nm, Usage := usage, DefValue := value, isStringValue := true }

/-- Embeds `Command` (`cli.go`): an action that can be invoked or a help
topic. `run` models the Go function pointer `Run`, which is nil exactly for
a help-only topic; an action maps the positional arguments to an optional
error. -/
structure Command where
  run : Option (List String → Option String)
  Usage : String
  Short : String
  Synopsis : String
  flags : FlagSet

/-- Embeds `CommandSet` (`cli.go`): the Go map `cmds` is modelled as an
association list whose keys are unique, with `Name` and `Desc` as in the
source. -/
structure CommandSet where
  cmds : List (String × Command)
  Name : String
  Desc : String

/-- `NewCommandSet` (`cli.go`). -/
def NewCommandSet (nm desc : String) : CommandSet :=
  { cmds := [], Name := nm, Desc := desc }

/-- One character of Go `%q` output (`strconv.Quote`), faithful on the
printable ASCII range and the common escapes. -/
def goQuoteChar (c : Char) : String :=
  if c = '"' then "\\\""
  else if c = '\\' then "\\\\"
  else if c = '\n' then "\\n"
  else if c = '\t' then "\\t"
  else if c = '\r' then "\\r"
  else String.singleton c

/-- Go `%q` formatting of a string value: double quotes around the escaped
characters. -/
def goQuote (s : String) : String :=
  "\"" ++ String.join (s.toList.map goQuoteChar) ++ "\""

/-- `CommandSet.Register` (`cli.go`): warns on the diagnostic stream when the
name is already bound, then overwrites the binding. The first component is
the warning text written to the diagnostic stream (empty when none). The
side effect of installing a default `Flags.Usage` callback mutates the
command, not the registry, and carries no information this model needs; the
nil-command panic is unrepresentable here because `cmd` is a value. -/
def CommandSet.register (cs : CommandSet) (nm : String) (cmd : Command) :
    String × CommandSet :=
  let warn :=
    if (cs.cmds.lookup nm).isSome then
      "warning: command " ++ goQuote nm ++ " already exits"
    else ""
  (warn, { cs with cmds := (nm, cmd) :: cs.cmds.filter (fun p => p.1 != nm) })

/-- `CommandSet.name` (`cli.go`), with `os.Args[0]` passed as `argv0`. Note
the source returns `cs.Name` when `cs.Name` is empty, and the base name of
`argv0` otherwise. -/
def CommandSet.name (cs : CommandSet) (argv0 : String) : String :=
  if cs.Name = "" then cs.Name else pathBase argv0

/-- `maxLen` (`cli_usage.go`). -/
def maxLen (ary : List String) : Nat :=
  ary.foldl (fun mx s => if s.length > mx then s.length else mx) 0

/-- `CommandSet.actions` (`cli.go`): all registered names, sorted
lexicographically by `sort.Strings`. -/
def CommandSet.actions (cs : CommandSet) : List String :=
  (cs.cmds.map Prod.fst).insertionSort (fun a b => a ≤ b)

/-- `CommandSet.partialMatch` (`cli.go`): the registered names that start
with `pre` (`strings.HasPrefix`), sorted by `sort.Strings`. -/
def CommandSet.partialMatch (cs : CommandSet) (pre : String) : List String :=
  ((cs.cmds.map Prod.fst).filter (fun n => pre.isPrefixOf n)).insertionSort
    (fun a b => a ≤ b)

/-- `CommandSet.unknownCommand` (`cli.go`): the text written to `w`. -/
def CommandSet.unknownCommand (cs : CommandSet) (nm : String) : String :=
  "unknown command: " ++ nm ++ "\n" ++
    (let possibles := cs.partialMatch nm
     if possibles.length > 0 then
       "\nDid you mean one of these?\n" ++
         String.join (possibles.map (fun s => "\t" ++ s ++ "\n"))
     else "")

/-- `shouldQuoteValue` (`cli_usage.go`): whether the default value of a flag
is printed quoted — the reflection test on the dynamic type of `f.Value`,
carried here on the flag itself. -/
def shouldQuoteValue (f : Flag) : Bool := f.isStringValue

/-- `formatFlag` (`cli_usage.go`). -/
def formatFlag (f : Flag) : String :=
  let leading := if f.Name.length > 1 then "--" else "-"
  leading ++ f.Name ++ "=" ++
    (if shouldQuoteValue f then goQuote f.DefValue else f.DefValue)

/-- The `%-*s` format verb: left justify `s` in a field of width `w`. -/
def padRight (s : String) (w : Nat) : String :=
  s ++ String.mk (List.replicate (w - s.length) ' ')

/-- The rows `columnize` (`cli_usage.go`) collects through `VisitAll`: the
formatted flag and its usage text, one row per registered option. -/
def columnRows (fs : FlagSet) : List (String × String) :=
  fs.visitAll.map (fun f => (formatFlag f, f.Usage))

/-- `columnize` (`cli_usage.go`): every row aligned to the widest flag
rendering, with a left margin of 3 spaces and a column gap of 3 spaces. -/
def columnize (fs : FlagSet) : String :=
  let rows := columnRows fs
  let flagWidth := maxLen (rows.map Prod.fst)
  String.join
    (rows.map (fun r => "   " ++ padRight r.1 flagWidth ++ "   " ++ r.2 ++ "\n"))

/-- `CommandSet.printUsageCmd` (`cli_usage.go`): detail mode for one
command. -/
def CommandSet.printUsageCmd (cs : CommandSet) (argv0 : String)
    (cmd : Command) : String :=
  "usage: " ++ cs.name argv0 ++ " " ++ cmd.Usage ++ "\n\n" ++
    "Arguments:\n" ++ columnize cmd.flags ++
    (if cmd.Synopsis ≠ "" then "\n" ++ cmd.Synopsis ++ "\n" else "")

/-- The listing branch of `CommandSet.PrintUsage` (`cli_usage.go`): the full
top-level listing, with the trailing blank line `eprintln()` prints. -/
def CommandSet.printUsageDefault (cs : CommandSet) (argv0 : String) : String :=
  "usage: " ++ cs.name argv0 ++ " <command> [arguments]\n\n" ++
    (let names := cs.actions
     if names.length > 0 then
       "Available commands:\n" ++
         String.join (names.map (fun n =>
           "    " ++ padRight n (maxLen names) ++ "   " ++
             ((cs.cmds.lookup n).map Command.Short).getD "" ++ "\n")) ++
         "\nUse \x27" ++ cs.name argv0 ++
           " help <command>\x27 for more information on a specific command.\n"
     else "") ++ "\n"

/-- `CommandSet.PrintUsage` (`cli_usage.go`): detail mode when `nm` resolves,
the listing otherwise. The returned string is what is written to the
diagnostic stream. -/
def CommandSet.PrintUsage (cs : CommandSet) (argv0 : String) (nm : String) :
    String :=
  match cs.cmds.lookup nm with
  | some cmd => cs.printUsageCmd argv0 cmd
  | none => cs.printUsageDefault argv0

/-- The observable outcome of `CommandSet.Run` (`cli.go`): `exited code text`
models `os.Exit(code)` after `text` was written to the diagnostic stream,
`done err` the return value of the invoked action, and `nilCall` the Go
runtime panic raised by calling a function value that is nil. -/
inductive RunOutcome where
  | exited (code : Nat) (stderr : String)
  | done (err : Option String)
  | nilCall
deriving Repr, DecidableEq

/-- The resolved branch of `CommandSet.Run` (`cli.go`): parse the arguments
against the command flag set, then invoke the action with the remaining
positional arguments. On `flag.ErrHelp` nothing further is printed by `Run`
itself; on any other parse error its message is printed with `Fprintln`;
both paths exit with status 2. The source calls `cmd.Run` without a nil
check, so a help-only topic reaches `nilCall`. -/
def dispatchCmd (cmd : Command) (args : List String) : RunOutcome :=
  match cmd.flags.parseFn args with
  | .err msg => .exited 2 (msg ++ "\n")
  | .errHelp => .exited 2 ""
  | .ok rest =>
    match cmd.run with
    | some f => .done (f rest)
    | none => .nilCall

/-- `CommandSet.Run` (`cli.go`, the switch based variant the repository
converged on): resolve the name, or else the help interception and the
unknown-command path, each exiting with status 2. -/
def CommandSet.run (cs : CommandSet) (argv0 : String) (nm : String)
    (args : List String) : RunOutcome :=
  match cs.cmds.lookup nm with
  | some cmd => dispatchCmd cmd args
  | none =>
    .exited 2
      (if nm ≠ "help" then cs.unknownCommand nm
       else
         match args with
         | [a] => cs.PrintUsage argv0 a
         | _ => cs.PrintUsage argv0 "")

/-- `Command.Float64` from the option-registration source file: the Go body
is `return cmd.Float64(name, value, usage)` — the method calls itself, not
`cmd.flags.Float64`. The unbounded recursion is modelled with explicit fuel;
`none` means the call has not returned within that much fuel. -/
def Command.Float64 : Nat → Command → String → Float → String →
    Option (Command × Float)
  | 0, _, _, _, _ => none
  | fuel + 1, cmd, nm, value, usage => Command.Float64 fuel cmd nm value usage

/-- `Command.Float64Var`, likewise self-recursive in the source
(`cmd.Float64Var(p, name, value, usage)`), fuelled the same way. -/
def Command.Float64Var : Nat → Command → Float → String → Float → String →
    Option Command
  | 0, _, _, _, _, _ => none
  | fuel + 1, cmd, p, nm, value, usage =>
    Command.Float64Var fuel cmd p nm value usage

/-- A runnable command used by concrete registries in witnesses. -/
def verCmd : Command :=
  { run := some (fun _ => none), Usage := "version",
    Short := "print the version and exit", Synopsis := "",
    flags := { formal := [], parseFn := fun a => .ok a } }

/-- A second runnable command used by concrete registries in witnesses: the
`export` command of the spec scenario, with the boolean option `v` and the
string option `o`. -/
def expCmd : Command :=
  { run := some (fun _ => none), Usage := "export [-v] [-o <outfile>]",
    Short := "export some data", Synopsis := "",
    flags := { formal := [boolFlag "v" false "cause export to be verbose",
                          stringFlag "o" "" "output to a file"],
               parseFn := fun a => .ok a } }

/-- A concrete two-command registry used by witnesses. -/
def witCS : CommandSet :=
  { cmds := [("export", expCmd), ("version", verCmd)], Name := "tool",
    Desc := "" }

/-- A command registered under the name `help`, used by the C10 witness. -/
def helpCmd : Command :=
  { run := some (fun _ => none), Usage := "help [<command>]",
    Short := "show help", Synopsis := "",
    flags := { formal := [], parseFn := fun a => .ok a } }

/-- A registry binding the name `help`, used by the C10 witness. -/
def helpCS : CommandSet :=
  { cmds := [("help", helpCmd)], Name := "tool", Desc := "" }

/-- A registered help-only topic: its `Run` function pointer is nil and its
arguments always parse. -/
def topicCmd : Command :=
  { run := none, Usage := "docs <topic>", Short := "documentation topics",
    Synopsis := "", flags := { formal := [], parseFn := fun a => .ok a } }

/-- A registry holding only the help-only topic `docs`. -/
def topicCS : CommandSet :=
  { cmds := [("docs", topicCmd)], Name := "tool", Desc := "" }

/-- A command registered under the empty name, for the C6 counterexample. -/
def emptyNameCmd : Command :=
  { run := some (fun _ => none), Usage := "<empty>", Short := "empty named",
    Synopsis := "", flags := { formal := [], parseFn := fun a => .ok a } }

/-- A registry with no `help` command but with a command bound to the empty
name, for the C6 counterexample. -/
def emptyNameCS : CommandSet :=
  { cmds := [("", emptyNameCmd)], Name := "tool", Desc := "" }

theorem partialMatch_sorted_le (cs : CommandSet) (pre : String) :
    (cs.partialMatch pre).Sorted (fun a b => a ≤ b) :=
  List.sorted_insertionSort _ _

theorem mem_partialMatch (cs : CommandSet) (pre n : String) :
    n ∈ cs.partialMatch pre ↔
      n ∈ cs.cmds.map Prod.fst ∧ pre.isPrefixOf n = true := by
  unfold CommandSet.partialMatch
  rw [List.mem_insertionSort, List.mem_filter]

theorem partialMatch_nodup (cs : CommandSet) (pre : String)
    (h : (cs.cmds.map Prod.fst).Nodup) : (cs.partialMatch pre).Nodup :=
  ((List.perm_insertionSort _ _).nodup_iff).mpr (h.filter _)

/-- C9: `SuggestionsFor` (`partialMatch` in the source) returns exactly the
registered names of which the query is a byte-wise prefix, in ascending
lexicographic order (strictly ascending, the keys of the Go map being
unique), and returns the empty sequence when no registered name matches. -/
theorem C9_partialMatch_exact_sorted (cs : CommandSet) (pre : String)
    (h : (cs.cmds.map Prod.fst).Nodup) :
    (cs.partialMatch pre).Sorted (fun a b => a < b) ∧
    (∀ n, n ∈ cs.partialMatch pre ↔
        n ∈ cs.cmds.map Prod.fst ∧ pre.isPrefixOf n = true) ∧
    ((∀ n ∈ cs.cmds.map Prod.fst, ¬ pre.isPrefixOf n = true) →
      cs.partialMatch pre = []) := by
  refine ⟨?_, fun n => mem_partialMatch cs pre n, ?_⟩
  · exact List.Sorted.lt_of_le (partialMatch_sorted_le cs pre)
      (partialMatch_nodup cs pre h)
  · intro hnone
    refine List.eq_nil_iff_forall_not_mem.mpr (fun n hn => ?_)
    rcases (mem_partialMatch cs pre n).mp hn with ⟨hmem, hpre⟩
    exact hnone n hmem hpre

theorem C9_witness :
    (witCS.partialMatch "ex").Sorted (fun a b => a < b) ∧
    (∀ n, n ∈ witCS.partialMatch "ex" ↔
        n ∈ witCS.cmds.map Prod.fst ∧ ("ex").isPrefixOf n = true) ∧
    ((∀ n ∈ witCS.cmds.map Prod.fst, ¬ ("ex").isPrefixOf n = true) →
      witCS.partialMatch "ex" = []) :=
  C9_partialMatch_exact_sorted witCS "ex" (by decide)

/-- C5: dispatching an unregistered name other than `help` writes
`unknown command: <name>` to the diagnostic stream, followed — exactly when
some registered name has the unresolved name as a prefix — by a `Did you
mean` section listing those names in ascending order, and exits with status
2. -/
theorem C5_unknown_command_framing (cs : CommandSet) (argv0 nm : String)
    (args : List String) (hlk : cs.cmds.lookup nm = none) (hne : nm ≠ "help")
    (hnd : (cs.cmds.map Prod.fst).Nodup) :
    cs.run argv0 nm args = .exited 2 (cs.unknownCommand nm) ∧
    (cs.partialMatch nm = [] →
      cs.unknownCommand nm = "unknown command: " ++ nm ++ "\n") ∧
    (cs.partialMatch nm ≠ [] →
      cs.unknownCommand nm =
        "unknown command: " ++ nm ++ "\n" ++ ("\nDid you mean one of these?\n" ++
          String.join ((cs.partialMatch nm).map (fun s => "\t" ++ s ++ "\n")))) ∧
    (cs.partialMatch nm).Sorted (fun a b => a < b) ∧
    (∀ n, n ∈ cs.partialMatch nm ↔
        n ∈ cs.cmds.map Prod.fst ∧ nm.isPrefixOf n = true) := by
  refine ⟨?_, ?_, ?_,
    List.Sorted.lt_of_le (partialMatch_sorted_le cs nm)
      (partialMatch_nodup cs nm hnd),
    fun n => mem_partialMatch cs nm n⟩
  · unfold CommandSet.run
    rw [hlk]
    simp [hne]
  · intro he
    have hlen : ¬ (cs.partialMatch nm).length > 0 := by simp [he]
    simp only [CommandSet.unknownCommand]
    rw [if_neg hlen]
    simp
  · intro he
    have hlen : (cs.partialMatch nm).length > 0 := List.length_pos.mpr he
    simp only [CommandSet.unknownCommand]
    rw [if_pos hlen]

theorem C5_witness :
    witCS.run "/bin/tool" "ex" [] = .exited 2 (witCS.unknownCommand "ex") ∧
    (witCS.partialMatch "ex" = [] →
      witCS.unknownCommand "ex" = "unknown command: " ++ "ex" ++ "\n") ∧
    (witCS.partialMatch "ex" ≠ [] →
      witCS.unknownCommand "ex" =
        "unknown command: " ++ "ex" ++ "\n" ++ ("\nDid you mean one of these?\n" ++
          String.join ((witCS.partialMatch "ex").map (fun s => "\t" ++ s ++ "\n")))) ∧
    (witCS.partialMatch "ex").Sorted (fun a b => a < b) ∧
    (∀ n, n ∈ witCS.partialMatch "ex" ↔
        n ∈ witCS.cmds.map Prod.fst ∧ ("ex").isPrefixOf n = true) :=
  C5_unknown_command_framing witCS "/bin/tool" "ex" [] rfl (by decide) (by decide)

/-- C8: registering a command under a name that is already bound does not
fail: `register` returns (the source only warns and proceeds), the warning
text is written to the diagnostic stream, the previous binding is replaced,
and a subsequent lookup of that name yields the newly registered command. -/
theorem C8_register_overwrites_and_warns (cs : CommandSet) (nm : String)
    (old cmd : Command) (h : cs.cmds.lookup nm = some old) :
    (cs.register nm cmd).1 =
      "warning: command " ++ goQuote nm ++ " already exits" ∧
    (cs.register nm cmd).2.cmds.lookup nm = some cmd := by
  constructor
  · simp only [CommandSet.register]
    rw [if_pos (by rw [h]; rfl)]
  · simp [CommandSet.register, List.lookup]

theorem C8_witness :
    (witCS.register "version" expCmd).1 =
      "warning: command " ++ goQuote "version" ++ " already exits" ∧
    (witCS.register "version" expCmd).2.cmds.lookup "version" = some expCmd :=
  C8_register_overwrites_and_warns witCS "version" verCmd expCmd rfl

/-- C10: a command registered under the name `help` shadows the built-in
help pseudo-command: `Run` dispatches to it like to any other command —
parsing the arguments against its own flag set and invoking its action —
and the help interception of the dispatcher never fires. -/
theorem C10_registered_help_shadows (cs : CommandSet) (argv0 : String)
    (args : List String) (cmd : Command)
    (h : cs.cmds.lookup "help" = some cmd) :
    cs.run argv0 "help" args = dispatchCmd cmd args ∧
    (∀ rest f, cmd.flags.parseFn args = .ok rest → cmd.run = some f →
      cs.run argv0 "help" args = .done (f rest)) ∧
    (∀ msg, cmd.flags.parseFn args = .err msg →
      cs.run argv0 "help" args = .exited 2 (msg ++ "\n")) := by
  have h1 : cs.run argv0 "help" args = dispatchCmd cmd args := by
    unfold CommandSet.run
    rw [h]
  refine ⟨h1, ?_, ?_⟩
  · intro rest f hp hr
    rw [h1]
    unfold dispatchCmd
    rw [hp, hr]
  · intro msg hp
    rw [h1]
    unfold dispatchCmd
    rw [hp]

theorem C10_witness :
    helpCS.run "/bin/tool" "help" ["x"] = dispatchCmd helpCmd ["x"] ∧
    (∀ rest f, helpCmd.flags.parseFn ["x"] = .ok rest → helpCmd.run = some f →
      helpCS.run "/bin/tool" "help" ["x"] = .done (f rest)) ∧
    (∀ msg, helpCmd.flags.parseFn ["x"] = .err msg →
      helpCS.run "/bin/tool" "help" ["x"] = .exited 2 (msg ++ "\n")) :=
  C10_registered_help_shadows helpCS "/bin/tool" ["x"] helpCmd rfl

/-- C2: evaluation of the name accessor and of a rendered usage line. With
the configured Name `"mytool"` and invocation path `/usr/bin/prog` the
rendered program name is `prog`, and with an empty configured Name it is the
empty string: the source condition `if cs.Name == ""` returns `cs.Name`
(empty) and otherwise the base name of `os.Args[0]` — the inverse of what
the field documentation and the spec state. -/
theorem C2_name_resolution_inverted :
    (CommandSet.mk [] "mytool" "").name "/usr/bin/prog" = "prog" ∧
    (CommandSet.mk [] "" "").name "/usr/bin/prog" = "" ∧
    (CommandSet.mk [] "mytool" "").printUsageDefault "/usr/bin/prog" =
      "usage: prog <command> [arguments]\n\n\n" :=
  ⟨rfl, rfl, rfl⟩

/-- C3: dispatching a registered help-only topic whose arguments parse
successfully reaches the invoke step and calls the nil action — the Go
runtime panic modelled by `nilCall` — instead of the unknown-command
handling (exit status 2) the spec requires. -/
theorem C3_topic_dispatch_calls_nil_action :
    topicCS.run "/bin/tool" "docs" [] = .nilCall := rfl

/-- C4: the floating point option registrations never return: for every
amount of fuel the self-recursive `Float64` and `Float64Var` of the source
have not produced a result, so no flag is ever defined on the command flag
set. -/
theorem C4_float64_never_returns :
    (∀ fuel cmd nm value usage,
      Command.Float64 fuel cmd nm value usage = none) ∧
    (∀ fuel cmd p nm value usage,
      Command.Float64Var fuel cmd p nm value usage = none) := by
  constructor
  · intro fuel
    induction fuel with
    | zero => intro cmd nm value usage; rfl
    | succ n ih =>
      intro cmd nm value usage
      rw [Command.Float64]
      exact ih cmd nm value usage
  · intro fuel
    induction fuel with
    | zero => intro cmd p nm value usage; rfl
    | succ n ih =>
      intro cmd p nm value usage
      rw [Command.Float64Var]
      exact ih cmd p nm value usage

/-- C1: counterexample — with `help` itself unregistered, `Run("help", [x])`
for an unregistered `x` renders the full top-level listing, which differs
from the unknown-command framing for `x` the claim states. -/
theorem C1_counterexample :
    witCS.run "/bin/tool" "help" ["frobnicate"] =
      .exited 2 (witCS.printUsageDefault "/bin/tool") ∧
    witCS.printUsageDefault "/bin/tool" ≠ witCS.unknownCommand "frobnicate" :=
  ⟨rfl, by decide⟩

/-- C1 amended: for every registry with `help` unregistered and every
unregistered name `x`, `Run("help", [x])` writes the full top-level listing
to the diagnostic stream — not the unknown-command framing — and exits with
status 2. -/
theorem C1_help_unknown_falls_back_to_listing (cs : CommandSet)
    (argv0 x : String) (hh : cs.cmds.lookup "help" = none)
    (hx : cs.cmds.lookup x = none) :
    cs.run argv0 "help" [x] = .exited 2 (cs.printUsageDefault argv0) := by
  have hne : ¬ (("help" : String) ≠ "help") := not_not_intro rfl
  simp only [CommandSet.run, hh, if_neg hne, CommandSet.PrintUsage, hx]

theorem C1_witness :
    witCS.run "/bin/tool" "help" ["nosuch"] =
      .exited 2 (witCS.printUsageDefault "/bin/tool") :=
  C1_help_unknown_falls_back_to_listing witCS "/bin/tool" "nosuch" rfl rfl

/-- C6: counterexample — a registry with no command named `help` but with a
command registered under the empty name: `Run("help", [])` renders the
detail view of that command (the empty name resolves inside `PrintUsage`),
not the full top-level listing the claim states for zero trailing
arguments. -/
theorem C6_counterexample :
    emptyNameCS.run "/bin/tool" "help" [] =
      .exited 2 (emptyNameCS.printUsageCmd "/bin/tool" emptyNameCmd) ∧
    emptyNameCS.printUsageCmd "/bin/tool" emptyNameCmd ≠
      emptyNameCS.printUsageDefault "/bin/tool" :=
  ⟨rfl, by decide⟩

/-- C6 amended: for every registry with no command named `help` and no
command registered under the empty name, dispatching `help` with zero or
with two or more trailing arguments renders the full top-level listing, and
dispatching `help x` with `x` registered renders the detail view of `x`:
its usage line, then one aligned row for every option of its flag set. -/
theorem C6_help_rendering (cs : CommandSet) (argv0 : String)
    (hh : cs.cmds.lookup "help" = none) (he : cs.cmds.lookup "" = none) :
    (∀ args : List String, args.length ≠ 1 →
      cs.run argv0 "help" args = .exited 2 (cs.printUsageDefault argv0)) ∧
    (∀ x cmd, cs.cmds.lookup x = some cmd →
      cs.run argv0 "help" [x] = .exited 2 (cs.printUsageCmd argv0 cmd) ∧
      cs.printUsageCmd argv0 cmd =
        "usage: " ++ cs.name argv0 ++ " " ++ cmd.Usage ++ "\n\n" ++
          "Arguments:\n" ++ columnize cmd.flags ++
          (if cmd.Synopsis ≠ "" then "\n" ++ cmd.Synopsis ++ "\n" else "") ∧
      columnize cmd.flags =
        String.join ((columnRows cmd.flags).map (fun r =>
          "   " ++
            padRight r.1 (maxLen ((columnRows cmd.flags).map Prod.fst)) ++
            "   " ++ r.2 ++ "\n")) ∧
      (∀ f ∈ cmd.flags.formal,
        (formatFlag f, f.Usage) ∈ columnRows cmd.flags)) := by
  have hne : ¬ (("help" : String) ≠ "help") := not_not_intro rfl
  constructor
  · intro args hlen
    match args, hlen with
    | [], _ => simp only [CommandSet.run, hh, if_neg hne, CommandSet.PrintUsage, he]
    | a :: b :: t, _ =>
      simp only [CommandSet.run, hh, if_neg hne, CommandSet.PrintUsage, he]
    | [a], h => exact absurd rfl h
  · intro x cmd hx
    refine ⟨?_, rfl, rfl, ?_⟩
    · simp only [CommandSet.run, hh, if_neg hne, CommandSet.PrintUsage, hx]
    · intro f hf
      exact List.mem_map_of_mem _
        ((List.mem_insertionSort _).mpr hf)

theorem C6_witness :
    witCS.run "/bin/tool" "help" [] =
      .exited 2 (witCS.printUsageDefault "/bin/tool") ∧
    witCS.run "/bin/tool" "help" ["export"] =
      .exited 2 (witCS.printUsageCmd "/bin/tool" expCmd) :=
  ⟨(C6_help_rendering witCS "/bin/tool" rfl rfl).1 [] (by decide),
   ((C6_help_rendering witCS "/bin/tool" rfl rfl).2 "export" expCmd rfl).1⟩

/-- C7: counterexample — the string option named `o` with empty default
renders with a single dash, `-o=""`, because its name is exactly one
character long, so the rendering `--o=""` the claim states does not occur;
and a flag with an empty name also renders with a single dash although its
name is not one character long. -/
theorem C7_counterexample :
    formatFlag (stringFlag "o" "" "output to a file") = "-o=\"\"" ∧
    formatFlag (stringFlag "o" "" "output to a file") ≠ "--o=\"\"" ∧
    formatFlag (Flag.mk "" "u" "x" false) = "-=x" := by decide

/-- C7 amended: a detail-mode row renders the flag as `-<name>=<default>`
with a single leading dash exactly when the option name is at most one
character long and a double dash when longer; the default value is double
quoted exactly when the underlying value type is string-like. The boolean
option `v` (default false) renders `-v=false`; the string option `o`
(default empty) renders `-o=""` — quoted, and with a single dash since its
name is one character long — and in the `export` command each row is padded
to the widest flag rendering, here the width of `-v=false`. -/
theorem expFlags_visitAll :
    expCmd.flags.visitAll =
      [stringFlag "o" "" "output to a file",
       boolFlag "v" false "cause export to be verbose"] := by
  have h : ¬ (("v" : String) ≤ "o") :=
    not_le.mpr (String.lt_iff_toList_lt.mpr (by decide))
  simp only [FlagSet.visitAll, expCmd, boolFlag, stringFlag,
    List.insertionSort, List.orderedInsert]
  rw [if_neg h]

theorem C7_flag_rendering (f : Flag) :
    formatFlag f =
      (if f.Name.length > 1 then "--" else "-") ++ f.Name ++ "=" ++
        (if shouldQuoteValue f then goQuote f.DefValue else f.DefValue) ∧
    (∀ nm v u, shouldQuoteValue (stringFlag nm v u) = true) ∧
    (∀ nm v u, shouldQuoteValue (boolFlag nm v u) = false) ∧
    formatFlag (boolFlag "v" false "cause export to be verbose") =
      "-v=false" ∧
    formatFlag (stringFlag "o" "" "output to a file") = "-o=\"\"" ∧
    columnize expCmd.flags =
      "   -o=\"\"      output to a file\n   -v=false   cause export to be verbose\n" :=
  ⟨rfl, fun _ _ _ => rfl, fun _ _ _ => rfl, rfl, rfl, by
    simp only [columnize, columnRows, expFlags_visitAll]
    decide⟩

end Cli
